import Mathlib

/-!
Shallow embedding of django-optimistic-lock (src/ool/__init__.py): a Django
mixin implementing optimistic concurrency control. The embedding covers the
locking-scope counters (class optimisticLocking), the VersionField default,
and the VersionedMixin._do_insert / _do_update save hooks. The backing store
is modelled as a list of rows; version numbers are Nat; scope counters are
Int (Python integers that may go negative); nullable values are Option.
The Django write executor (Model._do_update / QuerySet operations, an
external collaborator of this library) is modelled as a single conditional
UPDATE returning an affected-row count, per the repository's use of it.
-/

namespace Ool

/-! ## Locking Scope Controller (class optimisticLocking, lines 10-35)

A scope owner (the ambient thread-local object, a model instance, or a model
class) carries an integer attribute named by the source as
Python attribute lookup with a default: `none` is an unset attribute. -/

/-- Counter attribute of a scope owner: `none` when the attribute was never
set (Python getattr then falls back to an explicit default). -/
abbrev Counter := Option Int

/-- Python getattr(obj, attrname, d) for the counter attribute. -/
def getattrCounter (c : Counter) (d : Int) : Int := c.getD d

/-- Python truthiness of an integer: nonzero is truthy. -/
def truthy (i : Int) : Bool := i != 0

/-- optimisticLocking.__enter__ (line 21): counter becomes
getattr(stateObj, attr, 0) + 1. -/
def enter (c : Counter) : Counter := some (getattrCounter c 0 + 1)

/-- optimisticLocking.__exit__ (line 25): counter becomes
getattr(stateObj, attr, 1) - 1; note the default is 1, not 0. -/
def exitScope (c : Counter) : Counter := some (getattrCounter c 1 - 1)

/-- Python attribute lookup on a model instance: the instance's own
attribute when set, otherwise the class attribute (possibly itself unset). -/
def instanceGetattr (inst cls : Counter) : Counter :=
  match inst with
  | some v => some v
  | none => cls

/-- optimisticLocking.active(model) (lines 33-35):
getattr(current_state, attr, 0) or (model and getattr(model, attr, 0)),
read in boolean context. `model = none` models a call with model=None
(then `model and ...` is falsy); otherwise the second disjunct is the
truthiness of the model's effective counter. -/
def active (ambient : Counter) (model : Option Counter) : Bool :=
  truthy (getattrCounter ambient 0) ||
    match model with
    | none => false
    | some mc => truthy (getattrCounter mc 0)

/-! ## Data model -/

/-- The in-memory model instance, restricted to what the mixin reads: its
primary key, its version attribute (nullable), and whether the version
attribute is deferred (in self.get_deferred_fields()). -/
structure ModelInstance where
  pk : Nat
  version : Option Nat
  versionDeferred : Bool
  deriving Repr, DecidableEq

/-- A stored row of the table that declares the version column. Columns
other than pk and version are irrelevant to the protocol and elided. -/
structure Row where
  pk : Nat
  version : Nat
  deriving Repr, DecidableEq

/-- The backing store (the table holding the version column). -/
abbrev DB := List Row

/-- VersionField metadata: its default value. -/
structure VersionField where
  default : Nat
  deriving Repr, DecidableEq

/-- VersionField.__init__ (lines 71-73): kwargs.setdefault('default', 0) -
an explicitly passed default wins, otherwise 0. -/
def VersionField.fromKwargs (explicitDefault : Option Nat) : VersionField :=
  ⟨explicitDefault.getD 0⟩

/-- version_field.value_from_object(self): the instance's version attribute,
possibly null. -/
def value_from_object (self : ModelInstance) : Option Nat := self.version

/-- setattr(self, version_field.attname, v). -/
def setVersionAttr (self : ModelInstance) (v : Nat) : ModelInstance :=
  { self with version := some v }

/-! ## Insert path (VersionedMixin._do_insert, lines 94-100) -/

/-- VersionedMixin._do_insert: if the version value is null, replace it with
the field's default before delegating; the inserted row stores the record's
(now non-null) version value. The Option.getD only serves typing: after the
normalization the version is never null. -/
def _do_insert (field : VersionField) (self : ModelInstance) (db : DB) :
    ModelInstance × DB :=
  let self2 := if (value_from_object self).isNone
    then setVersionAttr self field.default
    else self
  (self2, db ++ [⟨self2.pk, self2.version.getD field.default⟩])

/-! ## Update path (VersionedMixin._do_update, lines 103-158) -/

/-- A SQL value placed in the write-value list for one field: NULL, an
integer literal, or the server-side expression F('version') + 1. -/
inductive SqlValue where
  | null : SqlValue
  | lit : Nat → SqlValue
  | incr : SqlValue
  deriving Repr, DecidableEq

/-- An entry (field, model, value) of the candidate write-value list as the
framework stages it: whether the field is the VersionField, and the staged
value (a literal or null; the framework stages pre_save results, never
expressions). -/
structure VEntry where
  isVersion : Bool
  value : Option Nat
  deriving Repr, DecidableEq

/-- Injection of a staged literal-or-null value into SqlValue. -/
def toSql : Option Nat → SqlValue
  | none => SqlValue.null
  | some n => SqlValue.lit n

/-- WHERE clause of the UPDATE: always pk = pkVal, and version = v when the
version filter was added (line 130). -/
def matchesPred (pkVal : Nat) (vf : Option Nat) (r : Row) : Bool :=
  r.pk == pkVal &&
    match vf with
    | none => true
    | some v => r.version == v

/-- Effect of one write-value entry on a stored row; only the version
column is modelled, so non-version entries leave the row as is. A null
written to the version column is not representable (the column is
non-null); that case is unreachable after the mixin's rewrite. -/
def applyValue (r : Row) (e : Bool × SqlValue) : Row :=
  if e.1 then
    match e.2 with
    | SqlValue.lit n => { r with version := n }
    | SqlValue.incr => { r with version := r.version + 1 }
    | SqlValue.null => r
  else r

/-- Effect of the whole write-value list on a stored row. -/
def applyValues (values : List (Bool × SqlValue)) (r : Row) : Row :=
  values.foldl applyValue r

/-- base_qs.filter(pk=pk_val).exists() (line 155): a pk-only existence
check, not conditioned on version. -/
def dbExists (db : DB) (pkVal : Nat) : Bool :=
  db.any fun r => r.pk == pkVal

/-- Number of rows the conditional UPDATE matches. -/
def affectedRows (db : DB) (pkVal : Nat) (vf : Option Nat) : Nat :=
  (db.filter (matchesPred pkVal vf)).length

/-- Django's Model._do_update (the write executor this mixin delegates to
with super(), lines 146-153): with an empty write-value list no UPDATE is
issued and the result is `update_fields is not None or filtered.exists()`;
otherwise one atomic conditional UPDATE runs against the store and the
result is whether it affected at least one row. -/
def superDoUpdate (db : DB) (pkVal : Nat) (vf : Option Nat)
    (values : List (Bool × SqlValue)) (updateFieldsGiven : Bool) :
    Bool × DB :=
  if values.isEmpty then
    (updateFieldsGiven || dbExists db pkVal, db)
  else
    (affectedRows db pkVal vf != 0,
     db.map fun r => if matchesPred pkVal vf r then applyValues values r else r)

/-- model.refresh_from_db() as invoked by ConcurrentUpdate.__init__
(line 43): reload the record's stored values by primary key, replacing the
tainted in-memory ones. The mixin only calls it when the row exists. -/
def refresh_from_db (db : DB) (self : ModelInstance) : ModelInstance :=
  match db.find? (fun r => r.pk == self.pk) with
  | some r => { self with version := some r.version, versionDeferred := false }
  | none => self

/-- Lines 128-130: the version filter added to the UPDATE's WHERE clause -
the client version itself when it is not null and optimisticLocking.active
(self) is truthy, otherwise nothing (pk-only predicate). -/
def versionFilter (clientVersion : Option Nat) (ambient : Counter)
    (modelCounter : Counter) : Option Nat :=
  if clientVersion.isSome && active ambient (some modelCounter)
  then clientVersion else none

/-- The loop of lines 133-144 over the write-value list: for each
VersionField entry, assert client_version is None or equals the staged
value (returning none models the AssertionError); a non-null staged value
is replaced by value + 1 and also written back to the instance, a null
staged value is replaced by the expression F('version') + 1 with the
instance left untouched. Other entries pass through unchanged. -/
def transformValues (clientVersion : Option Nat) (self : ModelInstance) :
    List VEntry → Option (List (Bool × SqlValue) × ModelInstance)
  | [] => some ([], self)
  | e :: rest =>
    if e.isVersion then
      if clientVersion = none ∨ clientVersion = e.value then
        match e.value with
        | some v =>
          (transformValues clientVersion (setVersionAttr self (v + 1)) rest).map
            fun p => ((true, SqlValue.lit (v + 1)) :: p.1, p.2)
        | none =>
          (transformValues clientVersion self rest).map
            fun p => ((true, SqlValue.incr) :: p.1, p.2)
      else none
    else
      (transformValues clientVersion self rest).map
        fun p => ((false, toSql e.value) :: p.1, p.2)

/-- Observable result of one _do_update call: the ordinary boolean return,
or one of the exceptions it can raise (ConcurrentUpdate carrying the
refreshed record, the RuntimeError for a deferred VersionField, or the
AssertionError of line 135). -/
inductive Outcome where
  | updated : Bool → Outcome
  | concurrentUpdate : ModelInstance → Outcome
  | runtimeError : Outcome
  | assertionError : Outcome
  deriving Repr, DecidableEq

/-- Lines 155-158: after the UPDATE, a zero-row result with the row still
existing raises ConcurrentUpdate(self), whose constructor refreshes the
record from the store; otherwise the boolean result is returned. -/
def afterUpdate (db2 : DB) (upd : Bool) (pkVal : Nat)
    (self2 : ModelInstance) : Outcome × DB × ModelInstance :=
  if !upd && dbExists db2 pkVal then
    (Outcome.concurrentUpdate (refresh_from_db db2 self2), db2,
     refresh_from_db db2 self2)
  else
    (Outcome.updated upd, db2, self2)

/-- VersionedMixin._do_update (lines 103-158). `declaresVersion` is the
test version_field.model == base_qs.model of line 108 (false for the other
tables of a multi-table-inheritance hierarchy); `updateFieldsGiven` models
`update_fields is not None`; `ambient` and `modelCounter` are the
thread-local and the record's effective scope counters. The result is the
outcome, the final store, and the final in-memory record. -/
def _do_update (self : ModelInstance) (db : DB) (pkVal : Nat)
    (values : List VEntry) (updateFieldsGiven : Bool)
    (declaresVersion : Bool) (ambient : Counter) (modelCounter : Counter) :
    Outcome × DB × ModelInstance :=
  if !declaresVersion then
    match superDoUpdate db pkVal none
      (values.map fun e => (e.isVersion, toSql e.value)) updateFieldsGiven with
    | (upd, db2) => (Outcome.updated upd, db2, self)
  else if self.versionDeferred then
    (Outcome.runtimeError, db, self)
  else
    match transformValues (value_from_object self) self values with
    | none => (Outcome.assertionError, db, self)
    | some (values2, self2) =>
      match superDoUpdate db pkVal
        (versionFilter (value_from_object self) ambient modelCounter)
        values2 (if values2.isEmpty then false else updateFieldsGiven) with
      | (upd, db2) => afterUpdate db2 upd pkVal self2

/-- What the loop of lines 133-144 writes back into the write-value list
for one entry, as a function of the client version, when the staged value
agrees with the client version. -/
def rewrittenEntry (clientVersion : Option Nat) (e : VEntry) :
    Bool × SqlValue :=
  if e.isVersion then
    (true, match clientVersion with
      | some c => SqlValue.lit (c + 1)
      | none => SqlValue.incr)
  else (false, toSql e.value)

/-- What the loop of lines 133-144 leaves as the in-memory record: advanced
to clientVersion + 1 when the client version is non-null and some version
entry was rewritten, untouched otherwise. -/
def rewrittenSelf (clientVersion : Option Nat) (self : ModelInstance)
    (hasVersionEntry : Bool) : ModelInstance :=
  match clientVersion with
  | some c => if hasVersionEntry then setVersionAttr self (c + 1) else self
  | none => self

/-! ## Helper lemmas -/

theorem applyValue_pk (r : Row) (e : Bool × SqlValue) :
    (applyValue r e).pk = r.pk := by
  unfold applyValue
  rcases e with ⟨b, w⟩
  cases b <;> cases w <;> simp

theorem applyValues_pk (values : List (Bool × SqlValue)) (r : Row) :
    (applyValues values r).pk = r.pk := by
  unfold applyValues
  induction values generalizing r with
  | nil => rfl
  | cons e rest ih =>
    simp only [List.foldl_cons]
    rw [ih, applyValue_pk]

theorem matchesPred_none (pkVal : Nat) (r : Row) :
    matchesPred pkVal none r = (r.pk == pkVal) := by
  unfold matchesPred
  simp

theorem matchesPred_eq_and (pkVal v : Nat) (r : Row) :
    matchesPred pkVal (some v) r = ((r.pk == pkVal) && (r.version == v)) := by
  rfl

theorem affectedRows_eq_zero_iff (db : DB) (pkVal : Nat) (vf : Option Nat) :
    affectedRows db pkVal vf = 0 ↔
      ∀ r ∈ db, matchesPred pkVal vf r = false := by
  unfold affectedRows
  rw [List.length_eq_zero, List.filter_eq_nil_iff]
  constructor
  · intro h r hr
    simpa using h r hr
  · intro h r hr
    simp [h r hr]

theorem updateMap_id (db : DB) (pkVal : Nat) (vf : Option Nat)
    (values : List (Bool × SqlValue))
    (h : ∀ r ∈ db, matchesPred pkVal vf r = false) :
    (db.map fun r =>
      if matchesPred pkVal vf r then applyValues values r else r) = db := by
  induction db with
  | nil => rfl
  | cons r rest ih =>
    simp only [List.map_cons]
    rw [h r (List.mem_cons_self r rest),
      ih (fun x hx => h x (List.mem_cons_of_mem r hx))]
    simp

theorem find?_eq_head?_filter (l : List Row) (p : Row → Bool) :
    l.find? p = (l.filter p).head? := by
  induction l with
  | nil => rfl
  | cons r rest ih =>
    by_cases hp : p r = true
    · rw [List.find?_cons_of_pos rest hp, List.filter_cons_of_pos hp]
      rfl
    · rw [List.find?_cons_of_neg rest hp, List.filter_cons_of_neg hp, ih]

theorem filter_pk_map (db : DB) (pkVal : Nat) (g : Row → Row)
    (hg : ∀ r, (g r).pk = r.pk) :
    (db.map g).filter (fun r => r.pk == pkVal) =
      (db.filter (fun r => r.pk == pkVal)).map g := by
  induction db with
  | nil => rfl
  | cons r rest ih =>
    simp only [List.map_cons, List.filter_cons, hg r]
    by_cases hr : (r.pk == pkVal) = true
    · simp [hr, ih]
    · simp only [Bool.not_eq_true] at hr
      simp [hr, ih]

theorem dbExists_iff (db : DB) (pkVal : Nat) :
    dbExists db pkVal = true ↔ ∃ r ∈ db, (r.pk == pkVal) = true := by
  unfold dbExists
  exact List.any_eq_true

theorem affectedRows_none_ne_zero (db : DB) (pkVal : Nat)
    (h : dbExists db pkVal = true) : affectedRows db pkVal none ≠ 0 := by
  obtain ⟨r, hr, hpk⟩ := (dbExists_iff db pkVal).mp h
  intro h0
  have hf := (affectedRows_eq_zero_iff db pkVal none).mp h0 r hr
  rw [matchesPred_none, hpk] at hf
  exact Bool.noConfusion hf

theorem setVersionAttr_idem (self : ModelInstance) (v : Nat) :
    setVersionAttr (setVersionAttr self v) v = setVersionAttr self v := rfl

theorem transformValues_of_staged (clientVersion : Option Nat)
    (self : ModelInstance) (values : List VEntry)
    (h : ∀ e ∈ values, e.isVersion = true → e.value = clientVersion) :
    transformValues clientVersion self values =
      some (values.map (rewrittenEntry clientVersion),
        rewrittenSelf clientVersion self
          (values.any fun e => e.isVersion)) := by
  induction values generalizing self with
  | nil => cases clientVersion <;> simp [transformValues, rewrittenSelf]
  | cons e rest ih =>
    have hrest : ∀ x ∈ rest, x.isVersion = true → x.value = clientVersion :=
      fun x hx => h x (List.mem_cons_of_mem e hx)
    by_cases hv : e.isVersion = true
    · have hev : e.value = clientVersion :=
        h e (List.mem_cons_self e rest) hv
      cases clientVersion with
      | some c =>
        have hrec := ih (setVersionAttr self (c + 1)) hrest
        cases hany : rest.any fun x => x.isVersion <;>
          simp [transformValues, hv, hev, hrec, rewrittenEntry,
            rewrittenSelf, List.any_cons, hany, setVersionAttr_idem]
      | none =>
        have hrec := ih self hrest
        cases hany : rest.any fun x => x.isVersion <;>
          simp [transformValues, hv, hev, hrec, rewrittenEntry,
            rewrittenSelf, List.any_cons, hany]
    · simp only [Bool.not_eq_true] at hv
      have hrec := ih self hrest
      cases clientVersion <;>
        simp [transformValues, hv, hrec, rewrittenEntry, rewrittenSelf,
          List.any_cons]

theorem transformValues_none_of_mismatch (c : Nat) (self : ModelInstance)
    (values : List VEntry) (e : VEntry) (he : e ∈ values)
    (hv : e.isVersion = true) (hne : e.value ≠ some c) :
    transformValues (some c) self values = none := by
  induction values generalizing self with
  | nil => cases he
  | cons e0 rest ih =>
    rcases List.mem_cons.mp he with rfl | htail
    · have hcond : ¬((some c : Option Nat) = none ∨ (some c : Option Nat) = e.value) := by
        rintro (h1 | h2)
        · exact Option.some_ne_none c h1
        · exact hne h2.symm
      simp only [transformValues, hv, if_true]
      rw [if_neg hcond]
    · by_cases hv0 : e0.isVersion = true
      · by_cases hcond :
          (some c : Option Nat) = none ∨ (some c : Option Nat) = e0.value
        · rcases hcond with h1 | h2
          · exact absurd h1 (by simp)
          · simp [transformValues, hv0, ← h2,
              ih (setVersionAttr self (c + 1)) htail]
        · simp only [transformValues, hv0, if_true]
          rw [if_neg hcond]
      · simp only [Bool.not_eq_true] at hv0
        simp [transformValues, hv0, ih self htail]

theorem transformValues_isSome_of_none (self : ModelInstance)
    (values : List VEntry) :
    (transformValues none self values).isSome = true := by
  induction values generalizing self with
  | nil => rfl
  | cons e rest ih =>
    by_cases hv : e.isVersion = true
    · cases hev : e.value with
      | some v =>
        simp [transformValues, hv, hev, Option.isSome_map',
          ih (setVersionAttr self (v + 1))]
      | none =>
        simp [transformValues, hv, hev, Option.isSome_map', ih self]
    · simp only [Bool.not_eq_true] at hv
      simp [transformValues, hv, Option.isSome_map', ih self]

/-! ## Claim theorems -/

/-- C5 (amended). For the reentrant locking scope, starting from a fresh
owner: entering twice and exiting once leaves the scope active (both for
the ambient owner and for a record or type owner); exiting a second time
deactivates it; exiting a third time does not error and leaves the counter
at -1 (negative), but the scope then reports active = true, because a
nonzero counter is truthy - not active = false as negative counters are
not falsy in Python. -/
theorem spec_C5 :
    active (exitScope (enter (enter none))) none = true ∧
    active none (some (exitScope (enter (enter none)))) = true ∧
    active (exitScope (exitScope (enter (enter none)))) none = false ∧
    active none (some (exitScope (exitScope (enter (enter none))))) = false ∧
    getattrCounter
      (exitScope (exitScope (exitScope (enter (enter none))))) 0 = -1 ∧
    active (exitScope (exitScope (exitScope (enter (enter none))))) none
      = true ∧
    active none
      (some (exitScope (exitScope (exitScope (enter (enter none))))))
      = true := by
  decide

/-- C5 counterexample. After entering a fresh scope twice and exiting three
times the counter is negative (-1) as the claim says, yet
optimisticLocking.active reports the scope as active (truthy), not
active = false as the claim states, whether the owner is the ambient
thread-local state or a record. -/
theorem spec_C5_counterexample :
    getattrCounter
      (exitScope (exitScope (exitScope (enter (enter none))))) 0 = -1 ∧
    active (exitScope (exitScope (exitScope (enter (enter none))))) none
      ≠ false ∧
    active none
      (some (exitScope (exitScope (exitScope (enter (enter none))))))
      ≠ false := by
  decide

/-- C6. optimisticLocking.active on a record is true iff the record's own
counter (found through Python attribute lookup: the instance's, else its
type's) is truthy or the ambient thread-local counter is truthy; and with
the ambient scope active while the record-level scope was never entered,
the version predicate is still added for a non-null client version: the
ambient scope is a fallback that a record-level scope cannot suppress. -/
theorem spec_C6 (ambient inst cls : Counter) (c : Nat) :
    (active ambient (some (instanceGetattr inst cls)) = true ↔
      (truthy (getattrCounter (instanceGetattr inst cls) 0) = true ∨
        truthy (getattrCounter ambient 0) = true)) ∧
    (truthy (getattrCounter ambient 0) = true →
      versionFilter (some c) ambient (instanceGetattr none none) = some c)
    := by
  constructor
  · simp [active, Bool.or_eq_true, or_comm]
  · intro h
    simp [versionFilter, active, instanceGetattr, h]

/-- C6 witness: with the ambient scope entered once and the record's
instance and class counters never set, the version predicate is added. -/
theorem spec_C6_witness :
    versionFilter (some 4) (enter none) (instanceGetattr none none)
      = some 4 :=
  (spec_C6 (enter none) none none 4).2 (by decide)

/-- C7. Saving a record whose version attribute is deferred raises the
fatal RuntimeError before any write is attempted: the store and the
in-memory record are unchanged and no UPDATE runs. -/
theorem spec_C7 (self : ModelInstance) (db : DB) (pkVal : Nat)
    (values : List VEntry) (ufg : Bool) (ambient mc : Counter)
    (h : self.versionDeferred = true) :
    _do_update self db pkVal values ufg true ambient mc =
      (Outcome.runtimeError, db, self) := by
  simp [_do_update, h]

/-- C7 witness at a concrete deferred record. -/
theorem spec_C7_witness :
    _do_update ⟨1, some 2, true⟩ [⟨1, 2⟩] 1 [⟨true, some 2⟩] true true
      none none = (Outcome.runtimeError, [⟨1, 2⟩], ⟨1, some 2, true⟩) :=
  spec_C7 ⟨1, some 2, true⟩ [⟨1, 2⟩] 1 [⟨true, some 2⟩] true none none rfl

/-- C8. For a table of a multi-table-inheritance hierarchy that does not
declare the version field, _do_update delegates unmodified to the plain
write executor: no version predicate (pk-only WHERE), the staged values as
given, the original update_fields flag, the in-memory record untouched -
and no conflict is ever raised on that path. -/
theorem spec_C8 (self : ModelInstance) (db : DB) (pkVal : Nat)
    (values : List VEntry) (ufg : Bool) (ambient mc : Counter) :
    _do_update self db pkVal values ufg false ambient mc =
      (Outcome.updated (superDoUpdate db pkVal none
          (values.map fun e => (e.isVersion, toSql e.value)) ufg).1,
        (superDoUpdate db pkVal none
          (values.map fun e => (e.isVersion, toSql e.value)) ufg).2,
        self) ∧
    ∀ m : ModelInstance,
      (_do_update self db pkVal values ufg false ambient mc).1 ≠
        Outcome.concurrentUpdate m := by
  constructor
  · rfl
  · intro m
    simp [_do_update]

/-- C9. A VersionField declared without an explicit default has default 0;
inserting a record whose version is null replaces the null with that
default before the insert, so the stored version is 0; a record inserted
with a non-null version is left unchanged and stores that version. -/
theorem spec_C9 (self : ModelInstance) (db : DB) :
    (VersionField.fromKwargs none).default = 0 ∧
    (self.version = none →
      _do_insert (VersionField.fromKwargs none) self db =
        (setVersionAttr self 0, db ++ [⟨self.pk, 0⟩])) ∧
    (∀ v : Nat, self.version = some v → ∀ field : VersionField,
      _do_insert field self db = (self, db ++ [⟨self.pk, v⟩])) := by
  refine ⟨rfl, ?_, ?_⟩
  · intro h
    simp [_do_insert, value_from_object, h, setVersionAttr,
      VersionField.fromKwargs]
  · intro v h field
    simp [_do_insert, value_from_object, h]

/-- C9 witness: a null-version record stores 0, a version-5 record is
unchanged and stores 5. -/
theorem spec_C9_witness :
    _do_insert (VersionField.fromKwargs none) ⟨7, none, false⟩ [] =
      (⟨7, some 0, false⟩, [⟨7, 0⟩]) ∧
    _do_insert (VersionField.fromKwargs none) ⟨8, some 5, false⟩ [] =
      (⟨8, some 5, false⟩, [⟨8, 5⟩]) :=
  ⟨(spec_C9 ⟨7, none, false⟩ []).2.1 rfl,
   (spec_C9 ⟨8, some 5, false⟩ []).2.2 5 rfl (VersionField.fromKwargs none)⟩

/-- C2. The version-equality predicate is part of the UPDATE's WHERE
clause iff the in-memory client version is non-null and the locking scope
reports active for the record; with a null client version the filter is
empty, so the predicate contains only the primary key, and an update of an
existing row with a null client version returns success - never a false
conflict - even while optimistic locking is active. -/
theorem spec_C2 (clientVersion : Option Nat) (ambient mc : Counter)
    (self : ModelInstance) (db : DB) (values : List VEntry) (ufg : Bool) :
    (versionFilter clientVersion ambient mc ≠ none ↔
      clientVersion ≠ none ∧ active ambient (some mc) = true) ∧
    versionFilter none ambient mc = none ∧
    (self.version = none → self.versionDeferred = false →
      dbExists db self.pk = true →
      (_do_update self db self.pk values ufg true ambient mc).1 =
        Outcome.updated true) := by
  refine ⟨?_, ?_, ?_⟩
  · unfold versionFilter
    cases clientVersion with
    | none => simp
    | some c => cases ha : active ambient (some mc) <;> simp [ha]
  · simp [versionFilter]
  · intro hcv hdef hex
    have hvfo : value_from_object self = none := hcv
    obtain ⟨p, hp⟩ := Option.isSome_iff_exists.mp
      (transformValues_isSome_of_none self values)
    rcases p with ⟨values2, self2⟩
    have hvf : versionFilter none ambient mc = none := by
      simp [versionFilter]
    cases hemp : values2.isEmpty with
    | true =>
      simp [_do_update, hdef, hvfo, hp, hvf, superDoUpdate, hemp, hex,
        afterUpdate]
    | false =>
      have haff := affectedRows_none_ne_zero db self.pk hex
      have haffb : (affectedRows db self.pk none != 0) = true :=
        bne_iff_ne.mpr haff
      simp [_do_update, hdef, hvfo, hp, hvf, superDoUpdate, hemp,
        afterUpdate, haff, haffb]

/-- C2 witness: null client version, locking active via the ambient scope,
row exists - the update succeeds. -/
theorem spec_C2_witness :
    (_do_update ⟨1, none, false⟩ [⟨1, 9⟩] 1 [⟨true, none⟩] true true
      (enter none) none).1 = Outcome.updated true :=
  (spec_C2 none (enter none) none ⟨1, none, false⟩ [⟨1, 9⟩] [⟨true, none⟩]
    true).2.2 rfl rfl rfl

/-- C3. The rewrite of the write-value list by _do_update: when the staged
values agree with the in-memory record (which is how the framework stages
them), a non-null client version c turns every version entry into the
literal c + 1 and advances the in-memory record to c + 1, while a null
client version turns every version entry into the server-side increment
expression and leaves the in-memory record untouched; and a staged version
value differing from a non-null client version is a fatal assertion
failure. -/
theorem spec_C3 (self : ModelInstance) (values : List VEntry) :
    ((∀ e ∈ values, e.isVersion = true →
        e.value = value_from_object self) →
      transformValues (value_from_object self) self values =
        some (values.map (rewrittenEntry (value_from_object self)),
          rewrittenSelf (value_from_object self) self
            (values.any fun e => e.isVersion))) ∧
    (∀ c : Nat, value_from_object self = some c →
      ∀ e ∈ values, e.isVersion = true → e.value ≠ some c →
        transformValues (value_from_object self) self values = none) := by
  constructor
  · exact transformValues_of_staged (value_from_object self) self values
  · intro c hc e he hv hne
    rw [hc]
    exact transformValues_none_of_mismatch c self values e he hv hne

/-- C3 witness: a client version 3 with staged value 3 becomes the literal
4 and the record advances to 4; a null client version becomes the
increment expression with the record untouched; staged 4 against client
version 3 is the assertion failure. -/
theorem spec_C3_witness :
    transformValues (some 3) ⟨1, some 3, false⟩
      [⟨true, some 3⟩, ⟨false, some 9⟩] =
      some ([(true, SqlValue.lit 4), (false, SqlValue.lit 9)],
        ⟨1, some 4, false⟩) ∧
    transformValues none ⟨2, none, false⟩ [⟨true, none⟩] =
      some ([(true, SqlValue.incr)], ⟨2, none, false⟩) ∧
    transformValues (some 3) ⟨1, some 3, false⟩ [⟨true, some 4⟩] = none :=
  ⟨(spec_C3 ⟨1, some 3, false⟩ [⟨true, some 3⟩, ⟨false, some 9⟩]).1
      (by decide),
   (spec_C3 ⟨2, none, false⟩ [⟨true, none⟩]).1 (by decide),
   (spec_C3 ⟨1, some 3, false⟩ [⟨true, some 4⟩]).2 3 rfl ⟨true, some 4⟩
      (by decide) rfl (by decide)⟩

/-- C10. With a non-null client version c, the value rewrite advances the
in-memory record to c + 1 before the UPDATE runs; when the UPDATE then
affects zero rows because the row no longer exists, the call returns the
ordinary zero-rows result (no conflict) with the store unchanged and the
in-memory version still c + 1 - it is not restored on that path. -/
theorem spec_C10 (self : ModelInstance) (db : DB) (pkVal : Nat)
    (values : List VEntry) (ufg : Bool) (ambient mc : Counter) (c : Nat)
    (hdef : self.versionDeferred = false)
    (hcv : self.version = some c)
    (hstaged : ∀ e ∈ values, e.isVersion = true → e.value = some c)
    (hhas : (values.any fun e => e.isVersion) = true)
    (hgone : ∀ r ∈ db, (r.pk == pkVal) = false) :
    _do_update self db pkVal values ufg true ambient mc =
      (Outcome.updated false, db, setVersionAttr self (c + 1)) ∧
    (setVersionAttr self (c + 1)).version = some (c + 1) := by
  have hvfo : value_from_object self = some c := hcv
  have htr := transformValues_of_staged (some c) self values hstaged
  rw [hhas] at htr
  have hmapne : ((values.map (rewrittenEntry (some c))).isEmpty) = false := by
    cases values with
    | nil => simp at hhas
    | cons a l => rfl
  have hm : ∀ vf : Option Nat, ∀ r ∈ db, matchesPred pkVal vf r = false := by
    intro vf r hr
    unfold matchesPred
    rw [hgone r hr]
    rfl
  have hzero : affectedRows db pkVal
      (versionFilter (some c) ambient mc) = 0 :=
    (affectedRows_eq_zero_iff db pkVal _).mpr (hm _)
  have hmap := updateMap_id db pkVal (versionFilter (some c) ambient mc)
    (values.map (rewrittenEntry (some c))) (hm _)
  have hex : dbExists db pkVal = false := by
    cases hb : dbExists db pkVal with
    | false => rfl
    | true =>
      obtain ⟨r, hr, hpk⟩ := (dbExists_iff db pkVal).mp hb
      rw [hgone r hr] at hpk
      exact Bool.noConfusion hpk
  refine ⟨?_, rfl⟩
  simp [_do_update, hdef, hvfo, htr, superDoUpdate, hmapne, hzero, hmap,
    afterUpdate, hex, rewrittenSelf]

/-- C10 witness: client version 3, the row deleted from the store - the
call returns false and the in-memory record stays at version 4. -/
theorem spec_C10_witness :
    _do_update ⟨1, some 3, false⟩ [] 1 [⟨true, some 3⟩] true true
      (enter none) none =
      (Outcome.updated false, [],
        setVersionAttr ⟨1, some 3, false⟩ 4) ∧
    (setVersionAttr ⟨1, some 3, false⟩ 4).version = some 4 :=
  spec_C10 ⟨1, some 3, false⟩ [] 1 [⟨true, some 3⟩] true (enter none) none
    3 rfl rfl (by decide) rfl (by decide)

/-- C1. When the (possibly version-conditioned) UPDATE affects zero rows:
if a row with the primary key still exists, _do_update raises
ConcurrentUpdate carrying the record refreshed from the store; if no such
row exists (concurrent deletion), it returns the ordinary zero-rows result
and raises no conflict. In both cases the store is unchanged. -/
theorem spec_C1 (self : ModelInstance) (db : DB) (pkVal : Nat)
    (values : List VEntry) (ufg : Bool) (ambient mc : Counter)
    (values2 : List (Bool × SqlValue)) (self2 : ModelInstance)
    (hdef : self.versionDeferred = false)
    (htr : transformValues (value_from_object self) self values =
      some (values2, self2))
    (hne : values2.isEmpty = false)
    (hzero : affectedRows db pkVal
      (versionFilter (value_from_object self) ambient mc) = 0) :
    (dbExists db pkVal = true →
      _do_update self db pkVal values ufg true ambient mc =
        (Outcome.concurrentUpdate (refresh_from_db db self2), db,
          refresh_from_db db self2)) ∧
    (dbExists db pkVal = false →
      _do_update self db pkVal values ufg true ambient mc =
        (Outcome.updated false, db, self2)) := by
  have hm := (affectedRows_eq_zero_iff db pkVal _).mp hzero
  have hmap := updateMap_id db pkVal
    (versionFilter (value_from_object self) ambient mc) values2 hm
  constructor
  · intro hex
    simp [_do_update, hdef, htr, superDoUpdate, hne, hzero, hmap,
      afterUpdate, hex]
  · intro hex
    simp [_do_update, hdef, htr, superDoUpdate, hne, hzero, hmap,
      afterUpdate, hex]

/-- C1 witness: client version 2 against a stored version 5 - zero rows
match, the row exists, and ConcurrentUpdate carries the refreshed record
at the stored version 5. -/
theorem spec_C1_witness :
    _do_update ⟨1, some 2, false⟩ [⟨1, 5⟩] 1 [⟨true, some 2⟩] true true
      (enter none) none =
      (Outcome.concurrentUpdate ⟨1, some 5, false⟩, [⟨1, 5⟩],
        ⟨1, some 5, false⟩) :=
  (spec_C1 ⟨1, some 2, false⟩ [⟨1, 5⟩] 1 [⟨true, some 2⟩] true
    (enter none) none [(true, SqlValue.lit 3)] ⟨1, some 3, false⟩
    rfl (by decide) rfl (by decide)).1 rfl

/-- C4. Two contending updates of the same record at stored version v,
both presenting client version v with locking active: the one that runs
first succeeds and the stored version becomes v + 1; the other then
matches no row, and since the row still exists it receives
ConcurrentUpdate whose refreshed record shows version v + 1 - so at most
one of the two attempts can succeed, whichever order they serialize in. -/
theorem spec_C4 (pk v : Nat) (db : DB) (ambient mc : Counter)
    (ufg1 ufg2 : Bool) (out1 : Outcome) (db1 : DB) (m1 : ModelInstance)
    (hdb : db.filter (fun r => r.pk == pk) = [⟨pk, v⟩])
    (hact : active ambient (some mc) = true)
    (hrun1 : _do_update ⟨pk, some v, false⟩ db pk [⟨true, some v⟩] ufg1
      true ambient mc = (out1, db1, m1)) :
    out1 = Outcome.updated true ∧
    db1.filter (fun r => r.pk == pk) = [⟨pk, v + 1⟩] ∧
    m1 = ⟨pk, some (v + 1), false⟩ ∧
    (_do_update ⟨pk, some v, false⟩ db1 pk [⟨true, some v⟩] ufg2
      true ambient mc).1 =
      Outcome.concurrentUpdate ⟨pk, some (v + 1), false⟩ := by
  have hvf : versionFilter (some v) ambient mc = some v := by
    simp [versionFilter, hact]
  have htr : transformValues (some v) ⟨pk, some v, false⟩
      [⟨true, some v⟩] =
      some ([(true, SqlValue.lit (v + 1))], ⟨pk, some (v + 1), false⟩) := by
    simp [transformValues, setVersionAttr]
  have hsplit : ∀ l : DB, l.filter (matchesPred pk (some v)) =
      (l.filter (fun r => r.pk == pk)).filter
        (fun r => r.version == v) := by
    intro l
    rw [List.filter_filter]
    apply List.filter_congr
    intro r hr
    rw [matchesPred_eq_and]
    exact (Bool.and_comm _ _).symm
  have hfil1 : db.filter (matchesPred pk (some v)) = [⟨pk, v⟩] := by
    rw [hsplit, hdb]
    simp [List.filter]
  have haff1 : (affectedRows db pk (some v) != 0) = true := by
    unfold affectedRows
    rw [hfil1]
    rfl
  have hcomp : _do_update ⟨pk, some v, false⟩ db pk [⟨true, some v⟩] ufg1
      true ambient mc =
      (Outcome.updated true,
        db.map (fun r => if matchesPred pk (some v) r
          then applyValues [(true, SqlValue.lit (v + 1))] r else r),
        ⟨pk, some (v + 1), false⟩) := by
    simp [_do_update, value_from_object, hvf, htr, superDoUpdate,
      afterUpdate, haff1]
  rw [hcomp] at hrun1
  have hout : out1 = Outcome.updated true := by
    have := congrArg (fun p => p.1) hrun1
    simpa using this.symm
  have hdb1 : db1 = db.map (fun r => if matchesPred pk (some v) r
      then applyValues [(true, SqlValue.lit (v + 1))] r else r) := by
    have := congrArg (fun p => p.2.1) hrun1
    simpa using this.symm
  have hm1 : m1 = ⟨pk, some (v + 1), false⟩ := by
    have := congrArg (fun p => p.2.2) hrun1
    simpa using this.symm
  have hg : ∀ r : Row, ((fun r => if matchesPred pk (some v) r
      then applyValues [(true, SqlValue.lit (v + 1))] r else r) r).pk
      = r.pk := by
    intro r
    by_cases hmr : matchesPred pk (some v) r = true
    · simp [hmr, applyValues_pk]
    · simp only [Bool.not_eq_true] at hmr
      simp [hmr]
  have hdb1f : db1.filter (fun r => r.pk == pk) = [⟨pk, v + 1⟩] := by
    rw [hdb1, filter_pk_map db pk _ hg, hdb]
    simp [matchesPred, applyValues, applyValue]
  have hfil2 : db1.filter (matchesPred pk (some v)) = [] := by
    rw [hsplit, hdb1f, List.filter_cons_of_neg (by simp)]
    rfl
  have haff2 : affectedRows db1 pk (some v) = 0 := by
    unfold affectedRows
    rw [hfil2]
    rfl
  have hm2 := (affectedRows_eq_zero_iff db1 pk (some v)).mp haff2
  have hmap2 := updateMap_id db1 pk (some v)
    [(true, SqlValue.lit (v + 1))] hm2
  have hex2 : dbExists db1 pk = true := by
    apply (dbExists_iff db1 pk).mpr
    have hmem : (⟨pk, v + 1⟩ : Row) ∈ db1.filter (fun r => r.pk == pk) := by
      rw [hdb1f]
      exact List.mem_cons_self _ _
    obtain ⟨hmem2, hpred⟩ := List.mem_filter.mp hmem
    exact ⟨_, hmem2, hpred⟩
  have href : refresh_from_db db1 ⟨pk, some (v + 1), false⟩ =
      ⟨pk, some (v + 1), false⟩ := by
    unfold refresh_from_db
    rw [show (⟨pk, some (v + 1), false⟩ : ModelInstance).pk = pk from rfl,
      find?_eq_head?_filter, hdb1f]
    rfl
  refine ⟨hout, hdb1f, hm1, ?_⟩
  simp [_do_update, value_from_object, hvf, htr, superDoUpdate,
    afterUpdate, haff2, hmap2, hex2, href]

/-- C4 witness: the concrete race at pk 1 and version 0 - the first
attempt wins and stores version 1, the second receives ConcurrentUpdate
with the refreshed record at version 1. -/
theorem spec_C4_witness :
    Outcome.updated true = Outcome.updated true ∧
    List.filter (fun r => r.pk == 1) [(⟨1, 1⟩ : Row)] = [⟨1, 1⟩] ∧
    (⟨1, some 1, false⟩ : ModelInstance) = ⟨1, some 1, false⟩ ∧
    (_do_update ⟨1, some 0, false⟩ [⟨1, 1⟩] 1 [⟨true, some 0⟩] true
      true (enter none) none).1 =
      Outcome.concurrentUpdate ⟨1, some 1, false⟩ :=
  spec_C4 1 0 [⟨1, 0⟩] (enter none) none true true
    (Outcome.updated true) [⟨1, 1⟩] ⟨1, some 1, false⟩
    (by decide) (by decide) (by decide)

end Ool
